import Mathlib

/-!
Verification of the NanoClaw filesystem-IPC / Discord-integration / local-agent
code. Each definition is a shallow embedding of the correspondingly named
function in the source tree; theorems settle the specification claims.
-/

namespace Nanoclaw

/-- `Result` (common envelope `{ success, message }`). -/
structure Result where
  success : Bool
  message : String
deriving DecidableEq, Repr

/-! ### Mailbox transport: `waitForResult` (agent.ts / part_000, lines 32-52)

The filesystem is observed only at discrete poll instants (the loop checks
`fs.existsSync` once per iteration, 500 ms apart).  `FileObs` is what the
k-th poll sees: no file, or a file whose `JSON.parse` either succeeds or
throws (the thrown cause as a string). -/

inductive FileObs where
  | absent
  | present (parsed : Except String Result)

/-- The poll loop of `waitForResult`: `k` is the poll index (time `500*k` ms),
`elapsed` mirrors the `elapsed` counter of the source.  On the first poll that
sees the file it parses: success returns the parsed `Result` and deletes the
file (second component `true`); a parse failure returns the
`Failed to read result` message without deleting and without retrying.
When `elapsed` reaches `maxWait` with no file seen, the loop returns
`Request timed out`. -/
def waitForResultAux (fileAt : Nat → FileObs) (k elapsed maxWait : Nat) :
    Result × Bool :=
  if elapsed < maxWait then
    match fileAt k with
    | .present (.ok r) => (r, true)
    | .present (.error e) =>
        ({ success := false, message := "Failed to read result: " ++ e }, false)
    | .absent => waitForResultAux fileAt (k + 1) (elapsed + 500) maxWait
  else
    ({ success := false, message := "Request timed out" }, false)
termination_by maxWait - elapsed
decreasing_by omega

/-- `waitForResult(requestId, maxWait = 30000)`: polls from time 0. -/
def waitForResult (fileAt : Nat → FileObs) (maxWait : Nat) : Result × Bool :=
  waitForResultAux fileAt 0 0 maxWait

/-! ### `splitMessage` (host.ts / part_002, lines 361-386)

Strings are modelled as `List Char` (JS `.length`/`.slice` are index-based);
`String.mk` wraps the chunks back up.  `lastIdxLe l c pos` is
`str.lastIndexOf(c, pos)`: the largest index `i ≤ pos` with `l[i] = c`
(`none` for JS `-1`). -/

def lastIdxLe (l : List Char) (c : Char) (pos : Nat) : Option Nat :=
  (List.range (min (pos + 1) l.length)).foldl
    (fun acc i => if l.getD i c = c then some i else acc) none

/-- JS `trimStart` whitespace test (ASCII portion; the source only ever
strips `' '` and `'\n'` boundaries produced by its own splits). -/
def jsWhitespace (c : Char) : Bool :=
  c = ' ' ∨ c = '\t' ∨ c = '\n' ∨ c = '\r' ∨ c = '\x0c' ∨ c = '\x0b'

/-- The candidate-rejection step: a candidate index is discarded when it is
JS `-1` (`none`) or `< maxLength / 2`; `2 * i < maxLength` encodes the
(float) comparison `i < maxLength / 2` exactly on naturals. -/
def resolveIdx (maxLength : Nat) : Option Nat → Option Nat
  | none => none
  | some i => if 2 * i < maxLength then none else some i

/-- The `splitIndex` computation of one loop iteration: last newline at or
before `maxLength`, else last space, else a hard split at `maxLength`. -/
def splitIdx (l : List Char) (maxLength : Nat) : Nat :=
  match resolveIdx maxLength (lastIdxLe l '\n' maxLength) with
  | some i => i
  | none =>
    match resolveIdx maxLength (lastIdxLe l ' ' maxLength) with
    | some i => i
    | none => maxLength

/-- The `while (remaining.length > 0)` loop of `splitMessage`.  `fuel` bounds
the iteration count (the caller passes `l.length`; each iteration of the
source loop with `maxLength = 2000` removes at least `splitIdx ≥ 1000`
characters, so this fuel is never exhausted there). -/
def splitGo (maxLength : Nat) : Nat → List Char → List (List Char)
  | 0, _ => []
  | fuel + 1, l =>
    if l.length = 0 then []
    else if l.length ≤ maxLength then [l]
    else
      let i := splitIdx l maxLength
      l.take i :: splitGo maxLength fuel ((l.drop i).dropWhile jsWhitespace)

/-- `splitMessage(text, maxLength = 2000)`. -/
def splitMessage (text : String) (maxLength : Nat) : List String :=
  if text.length ≤ maxLength then [text]
  else (splitGo maxLength text.data.length text.data).map String.mk

/-! ### Discord host handler: `handleDiscordIpc` (host.ts / part_002, lines 496-556) -/

/-- A channel mapping record from `data/discord-channels.json`. -/
structure ChannelMapping where
  discordGuildId : String
  discordChannelId : String
  nanoClawGroup : String
  isMain : Bool
deriving DecidableEq, Repr

/-- `getMappingForChannel`: first mapping whose `discordChannelId` matches. -/
def getMappingForChannel (mappings : List ChannelMapping) (channelId : String) :
    Option ChannelMapping :=
  mappings.find? (fun m => m.discordChannelId == channelId)

/-- The fields of an inbound IPC task file that `handleDiscordIpc` reads.
`Option` models absent JSON fields; JS truthiness also treats `""` as absent
(`jsTruthy`). -/
structure IpcData where
  type : Option String
  requestId : Option String
  channelId : Option String
  text : Option String
  groupFolder : Option String
  isMain : Option Bool
deriving DecidableEq

/-- JS truthiness of an optional string field (`undefined`/`null`/`""` are
falsy). -/
def jsTruthy : Option String → Bool
  | none => false
  | some s => s != ""

/-- `s.startsWith(p)`, computed on the underlying character lists. -/
def strStartsWith (s p : String) : Bool :=
  p.data.isPrefixOf s.data

/-- A Result-file write performed by `writeResult` (host.ts lines 496-500):
the full path and the JSON payload. -/
structure ResultWrite where
  path : String
  result : Result
deriving DecidableEq

/-- Outcome of one `handleDiscordIpc` call: whether it claimed the request
(its boolean return value) and the Result files it wrote. -/
structure HandleOutcome where
  handled : Bool
  writes : List ResultWrite
deriving DecidableEq

/-- The path `writeResult` writes to:
`path.join(dataDir, 'ipc', sourceGroup, 'discord_results')` plus
`{requestId}.json`. -/
def resultPath (dataDir sourceGroup requestId : String) : String :=
  dataDir ++ "/ipc/" ++ sourceGroup ++ "/discord_results/" ++ requestId ++ ".json"

/-- The Result produced after the authorization gate passes: `sendToChannel`
is external I/O, abstracted by its boolean outcome `sendOk`. -/
def sendOutcome (sendOk : Bool) : Result :=
  if sendOk then { success := true, message := "Message sent" }
  else { success := false, message := "Failed to send message" }

/-- The authorization gate plus external send of the `discord_send` case
(host.ts lines 527-543): look the channel up in the server-held mappings (the
lookup key is the only payload field consulted), allow a privileged (`isMain`)
caller on any mapped channel, otherwise require ownership. -/
def discordSendGate (mappings : List ChannelMapping) (sourceGroup : String)
    (isMain : Bool) (sendOk : Bool) (channelId : String) : Result :=
  match getMappingForChannel mappings channelId with
  | none => { success := false, message := "Channel not mapped to any group" }
  | some m =>
    if !isMain && m.nanoClawGroup != sourceGroup then
      { success := false, message := "Not authorized to send to this channel" }
    else sendOutcome sendOk

/-- `handleDiscordIpc(data, sourceGroup, isMain, dataDir)`.  `mappings` is the
in-memory `channelMappings` list; `sendOk` abstracts the `sendToChannel`
network call. -/
def handleDiscordIpc (mappings : List ChannelMapping) (sendOk : Bool)
    (data : IpcData) (sourceGroup : String) (isMain : Bool) (dataDir : String) :
    HandleOutcome :=
  if (match data.type with
      | some t => strStartsWith t "discord_"
      | none => false) then
    if jsTruthy data.requestId then
      match data.type with
      | some "discord_send" =>
        let r : Result :=
          if jsTruthy data.channelId && jsTruthy data.text then
            discordSendGate mappings sourceGroup isMain sendOk (data.channelId.getD "")
          else { success := false, message := "Missing channelId or text" }
        { handled := true,
          writes := [{ path := resultPath dataDir sourceGroup (data.requestId.getD ""),
                       result := r }] }
      | _ => { handled := false, writes := [] }
    else { handled := true, writes := [] }
  else { handled := false, writes := [] }

/-! ### Agent-side `discord_send` tool (agent.ts / part_000, lines 62-106) -/

/-- The IPC request document the tool writes into the tasks directory. -/
structure DiscordRequest where
  type : String
  requestId : String
  channelId : String
  text : String
  groupFolder : String
  isMain : Bool
deriving DecidableEq

/-- Observable behaviour of one `discord_send` tool invocation: the reply
text, its error flag, the request file written (if any), and whether
`waitForResult` was entered. -/
structure DiscordSendOutcome where
  replyText : String
  isError : Bool
  request : Option DiscordRequest
  awaited : Bool
deriving DecidableEq

/-- The snowflake check `/^\d{17,20}$/.test(channel_id)`: the whole string is
17 to 20 decimal digits. -/
def isValidChannelId (s : String) : Bool :=
  decide (17 ≤ s.length) && decide (s.length ≤ 20) && s.data.all Char.isDigit

/-- The `discord_send` tool handler.  `requestId` abstracts the generated
`discord-send-{Date.now()}-{random}` id and `awaited` the `Result` that
`waitForResult` eventually returns for it. -/
def discordSendTool (groupFolder : String) (isMain : Bool) (requestId : String)
    (awaitedResult : Result) (channelId text : String) : DiscordSendOutcome :=
  if isValidChannelId channelId then
    { replyText := awaitedResult.message
      isError := !awaitedResult.success
      request := some { type := "discord_send", requestId := requestId,
                        channelId := channelId, text := text,
                        groupFolder := groupFolder, isMain := isMain }
      awaited := true }
  else
    { replyText := "Invalid channel ID format. Discord channel IDs are 17-20 digit numbers."
      isError := true
      request := none
      awaited := false }

/-! ### File path validation and the `write_file`/`read_file` tools
(local-agent.ts, lines 95-111 and 304-330) -/

/-- `MAX_FILE_SIZE = 100 * 1024`. -/
def MAX_FILE_SIZE : Nat := 100 * 1024

/-- `Buffer.byteLength(content, 'utf-8')`. -/
def byteLength (s : String) : Nat := (s.data.map Char.utf8Size).sum

/-- Two consecutive dots anywhere in the char list. -/
def hasDotDot : List Char → Bool
  | [] => false
  | [_] => false
  | a :: b :: rest => (a = '.' && b = '.') || hasDotDot (b :: rest)

/-- Substring test `relativePath.includes('..')`. -/
def includesDotDot (s : String) : Bool :=
  hasDotDot s.data

/-- `validateGroupPath(relativePath, groupFolder)`.  `resolve` abstracts
`path.resolve(groupDir, relativePath)` (an arbitrary normalisation — every
theorem below holds for all of them); `groupsDir` is the `GROUPS_DIR`
constant.  Returns the resolved path or the error string. -/
def validateGroupPath (resolve : String → String → String) (groupsDir : String)
    (relativePath groupFolder : String) : Except String String :=
  if relativePath = "" then .error "Path is required"
  else if strStartsWith relativePath "/" then .error "Absolute paths are not allowed"
  else if includesDotDot relativePath then .error "Path traversal (..) is not allowed"
  else
    let groupDir := groupsDir ++ "/" ++ groupFolder
    let resolved := resolve groupDir relativePath
    if !(strStartsWith resolved (groupDir ++ "/")) && resolved != groupDir then
      .error "Path resolves outside the group directory"
    else .ok resolved

/-- Observable behaviour of one `write_file` tool call: the string returned
to the model, and (path, content) of the filesystem write if one occurred. -/
structure WriteFileOutcome where
  reply : String
  written : Option (String × String)
deriving DecidableEq

/-- The `write_file` case of `executeTool` (lines 316-330).  The actual
`fs.writeFileSync` is recorded in `written`. -/
def writeFileTool (resolve : String → String → String) (groupsDir : String)
    (groupFolder relativePath content : String) : WriteFileOutcome :=
  match validateGroupPath resolve groupsDir relativePath groupFolder with
  | .error e => { reply := "Error: " ++ e, written := none }
  | .ok resolved =>
    if MAX_FILE_SIZE < byteLength content then
      { reply := "Error: Content exceeds maximum file size of " ++
          toString (MAX_FILE_SIZE / 1024) ++ "KB"
        written := none }
    else
      { reply := "File written: " ++ relativePath ++ " (" ++
          toString content.length ++ " chars)"
        written := some (resolved, content) }

/-- Observable behaviour of one `read_file` tool call: the reply and the path
read, if the filesystem was touched at all.  `fileContent` abstracts
`fs.readFileSync` (`none` = file does not exist). -/
structure ReadFileOutcome where
  reply : String
  readPath : Option String
deriving DecidableEq

/-- The `read_file` case of `executeTool` (lines 304-314). -/
def readFileTool (resolve : String → String → String) (groupsDir : String)
    (fileContent : String → Option String)
    (groupFolder relativePath : String) : ReadFileOutcome :=
  match validateGroupPath resolve groupsDir relativePath groupFolder with
  | .error e => { reply := "Error: " ++ e, readPath := none }
  | .ok resolved =>
    match fileContent resolved with
    | none => { reply := "File not found: " ++ relativePath, readPath := some resolved }
    | some c =>
      { reply := if c = "" then "(empty file)" else c, readPath := some resolved }

/-! ### The tool-calling agent loop: `runLocalAgent` (local-agent.ts, 660-866)

The completion API is abstracted as `complete : Nat → Except String AssistantMsg`:
the value returned by the `k`-th `callOllama` call (counting from 0), where
`.error` models an exception escaping `callOllama` (a non-retryable API
failure).  Tool execution is abstracted as `execTool : Nat → String`, the
string produced by the `k`-th `executeTool` invocation (a thrown exception is
already folded into the `Tool error: ...` string by the source).  All loop
counters, message pushes and session saves are explicit. -/

/-- Message roles of the OpenAI-compatible API. -/
inductive Role where
  | system
  | user
  | assistant
  | tool
deriving DecidableEq

/-- One tool call requested by the model. -/
structure ToolCallM where
  id : String
  name : String
  arguments : String
deriving DecidableEq

/-- The `choices[0].message` of a completion response. -/
structure AssistantMsg where
  content : Option String
  toolCalls : List ToolCallM
deriving DecidableEq

/-- A `ChatMessage` of the conversation list. -/
structure ChatMessage where
  role : Role
  content : Option String
  toolCalls : List ToolCallM
  toolCallId : Option String
deriving DecidableEq

def systemMsg (s : String) : ChatMessage :=
  { role := .system, content := some s, toolCalls := [], toolCallId := none }

def userMsg (s : String) : ChatMessage :=
  { role := .user, content := some s, toolCalls := [], toolCallId := none }

def assistantMsgOf (am : AssistantMsg) : ChatMessage :=
  { role := .assistant, content := am.content, toolCalls := am.toolCalls,
    toolCallId := none }

def toolMsg (content id : String) : ChatMessage :=
  { role := .tool, content := some content, toolCalls := [], toolCallId := some id }

/-- The synthetic tool-result message pushed when a tool hits its cap. -/
def stopMsg (name id : String) : ChatMessage :=
  toolMsg ("Tool \"" ++ name ++
    "\" has been called too many times. Stop calling tools and respond to the user with what you have.") id

/-- `MAX_TOOL_ITERATIONS = 10`. -/
def MAX_TOOL_ITERATIONS : Nat := 10

/-- `MAX_HISTORY = 20`. -/
def MAX_HISTORY : Nat := 20

/-- The per-tool cap: `MAX_SEND_MESSAGES = 2` for `send_message`,
`MAX_SAME_TOOL = 3` otherwise. -/
def capOf (name : String) : Nat :=
  if name = "send_message" then 2 else 3

/-- Tool-result truncation at `MAX_TOOL_RESULT_CHARS = 1200`. -/
def truncateResult (s : String) : String :=
  if 1200 < s.length then s.take 1200 ++ "\n... (truncated)" else s

/-- `result || null` of the plain-text exit: empty or null content becomes
`null`. -/
def contentOrNull : Option String → Option String
  | none => none
  | some s => if s = "" then none else some s

/-- Loop-local state: the message list, the `toolCallCounts` map, the index
of the next completion call, the index of the next tool execution, and the
names of the tools actually executed so far (in order). -/
structure LoopState where
  messages : List ChatMessage
  counts : String → Nat
  callIdx : Nat
  execIdx : Nat
  executed : List String

inductive AgentStatus where
  | success
  | error
deriving DecidableEq

/-- Observable outcome of one `runLocalAgent` invocation: the returned
status/result, the final in-memory message list, the session contents passed
to `saveSession` (`none` when `saveSession` was never called), the number of
completion calls made with the full tool set, whether a forced no-tool
completion call was made, and the executed tool names. -/
structure RunOutcome where
  status : AgentStatus
  result : Option String
  finalMessages : List ChatMessage
  saved : Option (List ChatMessage)
  offeringCalls : Nat
  forcedCall : Bool
  executed : List String

/-- The `for (const toolCall of ...)` body (lines 750-805): bump the per-name
counter; over the cap push the synthetic stop message and set `loopAborted`
(the `continue` — later calls of the same response still run); otherwise
execute, truncate, and push the tool-result message. -/
def procCalls (execTool : Nat → String) (st : LoopState) (aborted : Bool) :
    List ToolCallM → LoopState × Bool
  | [] => (st, aborted)
  | tc :: rest =>
    let counts1 : String → Nat :=
      fun n => if n = tc.name then st.counts n + 1 else st.counts n
    if capOf tc.name < counts1 tc.name then
      procCalls execTool
        { st with counts := counts1,
                  messages := st.messages ++ [stopMsg tc.name tc.id] }
        true rest
    else
      procCalls execTool
        { st with counts := counts1,
                  messages := st.messages ++ [toolMsg (truncateResult (execTool st.execIdx)) tc.id],
                  execIdx := st.execIdx + 1,
                  executed := st.executed ++ [tc.name] }
        aborted rest

/-- The `while (iterations < MAX_TOOL_ITERATIONS)` loop plus its three exits
(lines 709-845).  `fuel` is the number of iterations still allowed; at 0 the
budget exit performs the forced no-tool completion call.  The source does not
push the forced response onto `messages` before saving, so neither does this
model. -/
def runLoop (complete : Nat → Except String AssistantMsg)
    (execTool : Nat → String) : Nat → LoopState → RunOutcome
  | 0, st =>
    match complete st.callIdx with
    | .error _ =>
      { status := .error, result := none, finalMessages := st.messages,
        saved := none, offeringCalls := st.callIdx, forcedCall := true,
        executed := st.executed }
    | .ok fin =>
      let c := fin.content.getD ""
      { status := .success
        result := some (if c = "" then "I reached my processing limit. Please try again." else c)
        finalMessages := st.messages
        saved := some (st.messages.drop 1)
        offeringCalls := st.callIdx
        forcedCall := true
        executed := st.executed }
  | fuel + 1, st =>
    match complete st.callIdx with
    | .error _ =>
      { status := .error, result := none, finalMessages := st.messages,
        saved := none, offeringCalls := st.callIdx, forcedCall := false,
        executed := st.executed }
    | .ok am =>
      let st1 : LoopState :=
        { st with messages := st.messages ++ [assistantMsgOf am],
                  callIdx := st.callIdx + 1 }
      if am.toolCalls = [] then
        { status := .success
          result := contentOrNull am.content
          finalMessages := st1.messages
          saved := some (st1.messages.drop 1)
          offeringCalls := st1.callIdx
          forcedCall := false
          executed := st1.executed }
      else
        match procCalls execTool st1 false am.toolCalls with
        | (st2, true) =>
          match complete st2.callIdx with
          | .error _ =>
            { status := .error, result := none, finalMessages := st2.messages,
              saved := none, offeringCalls := st1.callIdx, forcedCall := true,
              executed := st2.executed }
          | .ok fin =>
            let c := fin.content.getD ""
            { status := .success
              result := some (if c = "" then "Sorry, I had trouble processing that. Please try again." else c)
              finalMessages := st2.messages
              saved := some (st2.messages.drop 1)
              offeringCalls := st1.callIdx
              forcedCall := true
              executed := st2.executed }
        | (st2, false) => runLoop complete execTool fuel st2

/-- Session-load trim (lines 692-693): `session.messages.slice(-MAX_HISTORY)`. -/
def trimHistory (l : List ChatMessage) : List ChatMessage :=
  l.drop (l.length - MAX_HISTORY)

/-- `runLocalAgent`: build `[system] ++ trimmed history ++ [user]` and run the
loop with the 10-iteration budget and fresh counters. -/
def runLocalAgent (complete : Nat → Except String AssistantMsg)
    (execTool : Nat → String) (systemPrompt prompt : String)
    (history : List ChatMessage) : RunOutcome :=
  runLoop complete execTool MAX_TOOL_ITERATIONS
    { messages := systemMsg systemPrompt :: (trimHistory history ++ [userMsg prompt])
      counts := fun _ => 0
      callIdx := 0
      execIdx := 0
      executed := [] }

/-- Occurrences of tool name `nm` among a response's tool calls. -/
def occCount (nm : String) (calls : List ToolCallM) : Nat :=
  (calls.map (fun tc => tc.name)).count nm

/-- A 100KB + 1 byte payload (used to exercise the write size cap). -/
def bigContent : String := String.mk (List.replicate 102401 'a')

/-!  ## Theorems -/

theorem jsTruthy_some {s : String} (h : s ≠ "") : jsTruthy (some s) = true := by
  simp [jsTruthy, h]

/-- Reduction of `handleDiscordIpc` on a well-formed `discord_send` request:
it is claimed, and writes exactly the gate's verdict at the stable path. -/
theorem handleDiscordIpc_send (mappings : List ChannelMapping) (sendOk : Bool)
    (sourceGroup : String) (isMain : Bool) (dataDir : String)
    (rid cid text : String) (gf : Option String) (im : Option Bool)
    (hrid : rid ≠ "") (hcid : cid ≠ "") (htext : text ≠ "") :
    handleDiscordIpc mappings sendOk
        ⟨some "discord_send", some rid, some cid, some text, gf, im⟩
        sourceGroup isMain dataDir =
      { handled := true
        writes := [{ path := resultPath dataDir sourceGroup rid,
                     result := discordSendGate mappings sourceGroup isMain sendOk cid }] } := by
  simp [handleDiscordIpc, jsTruthy_some, hrid, hcid, htext, jsTruthy]
  decide

/-- Claim C1: the authorization decision for a `discord_send` request.  An
unmapped channel yields the `Channel not mapped to any group` failure Result;
a privileged (`isMain`) caller is allowed on any mapped channel; an
unprivileged caller is allowed exactly when the mapping's owner group equals
the request's source group, and is otherwise denied with
`Not authorized to send to this channel`.  The decision depends only on the
server-held mappings and the payload's channel id — not on the payload's
`text`, `groupFolder` or `isMain` fields. -/
theorem handleDiscordIpc_authorization (mappings : List ChannelMapping)
    (sendOk : Bool) (sourceGroup : String) (isMain : Bool) (dataDir : String)
    (rid cid text : String) (gf : Option String) (im : Option Bool)
    (hrid : rid ≠ "") (hcid : cid ≠ "") (htext : text ≠ "") :
    (getMappingForChannel mappings cid = none →
      handleDiscordIpc mappings sendOk
          ⟨some "discord_send", some rid, some cid, some text, gf, im⟩
          sourceGroup isMain dataDir =
        ⟨true, [⟨resultPath dataDir sourceGroup rid,
                 ⟨false, "Channel not mapped to any group"⟩⟩]⟩)
    ∧ (∀ m, getMappingForChannel mappings cid = some m → isMain = true →
      handleDiscordIpc mappings sendOk
          ⟨some "discord_send", some rid, some cid, some text, gf, im⟩
          sourceGroup isMain dataDir =
        ⟨true, [⟨resultPath dataDir sourceGroup rid, sendOutcome sendOk⟩]⟩)
    ∧ (∀ m, getMappingForChannel mappings cid = some m → isMain = false →
      ((m.nanoClawGroup = sourceGroup →
        handleDiscordIpc mappings sendOk
            ⟨some "discord_send", some rid, some cid, some text, gf, im⟩
            sourceGroup isMain dataDir =
          ⟨true, [⟨resultPath dataDir sourceGroup rid, sendOutcome sendOk⟩]⟩) ∧
       (m.nanoClawGroup ≠ sourceGroup →
        handleDiscordIpc mappings sendOk
            ⟨some "discord_send", some rid, some cid, some text, gf, im⟩
            sourceGroup isMain dataDir =
          ⟨true, [⟨resultPath dataDir sourceGroup rid,
                   ⟨false, "Not authorized to send to this channel"⟩⟩]⟩)))
    ∧ (∀ (text2 : String) (gf2 : Option String) (im2 : Option Bool), text2 ≠ "" →
      handleDiscordIpc mappings sendOk
          ⟨some "discord_send", some rid, some cid, some text2, gf2, im2⟩
          sourceGroup isMain dataDir =
        handleDiscordIpc mappings sendOk
          ⟨some "discord_send", some rid, some cid, some text, gf, im⟩
          sourceGroup isMain dataDir) := by
  refine ⟨?_, ?_, ?_, ?_⟩
  · intro hnone
    rw [handleDiscordIpc_send mappings sendOk sourceGroup isMain dataDir rid cid text gf im hrid hcid htext]
    simp [discordSendGate, hnone]
  · intro m hm hmain
    rw [handleDiscordIpc_send mappings sendOk sourceGroup isMain dataDir rid cid text gf im hrid hcid htext]
    simp [discordSendGate, hm, hmain]
  · intro m hm hmain
    constructor
    · intro hown
      rw [handleDiscordIpc_send mappings sendOk sourceGroup isMain dataDir rid cid text gf im hrid hcid htext]
      simp [discordSendGate, hm, hmain, hown]
    · intro hown
      rw [handleDiscordIpc_send mappings sendOk sourceGroup isMain dataDir rid cid text gf im hrid hcid htext]
      simp [discordSendGate, hm, hmain, hown]
  · intro text2 gf2 im2 htext2
    rw [handleDiscordIpc_send mappings sendOk sourceGroup isMain dataDir rid cid text gf im hrid hcid htext,
        handleDiscordIpc_send mappings sendOk sourceGroup isMain dataDir rid cid text2 gf2 im2 hrid hcid htext2]

/-- Witness for C1: a concrete mapping table exercising the deny, owner-allow
and privileged-allow branches. -/
theorem handleDiscordIpc_authorization_witness :
    handleDiscordIpc [⟨"gld", "11111111111111111", "alpha", false⟩] true
        ⟨some "discord_send", some "r1", some "11111111111111111", some "hi", some "beta", some false⟩
        "beta" false "/data" =
      ⟨true, [⟨resultPath "/data" "beta" "r1",
               ⟨false, "Not authorized to send to this channel"⟩⟩]⟩ ∧
    handleDiscordIpc [⟨"gld", "11111111111111111", "alpha", false⟩] true
        ⟨some "discord_send", some "r2", some "11111111111111111", some "hi", some "alpha", some false⟩
        "alpha" false "/data" =
      ⟨true, [⟨resultPath "/data" "alpha" "r2", sendOutcome true⟩]⟩ ∧
    handleDiscordIpc [⟨"gld", "11111111111111111", "alpha", false⟩] true
        ⟨some "discord_send", some "r3", some "22222222222222222", some "hi", some "main", some true⟩
        "main" true "/data" =
      ⟨true, [⟨resultPath "/data" "main" "r3",
               ⟨false, "Channel not mapped to any group"⟩⟩]⟩ := by
  refine ⟨?_, ?_, ?_⟩
  · exact (((handleDiscordIpc_authorization [⟨"gld", "11111111111111111", "alpha", false⟩]
      true "beta" false "/data" "r1" "11111111111111111" "hi" (some "beta") (some false)
      (by decide) (by decide) (by decide)).2.2.1) ⟨"gld", "11111111111111111", "alpha", false⟩
      (by decide) rfl).2 (by decide)
  · exact (((handleDiscordIpc_authorization [⟨"gld", "11111111111111111", "alpha", false⟩]
      true "alpha" false "/data" "r2" "11111111111111111" "hi" (some "alpha") (some false)
      (by decide) (by decide) (by decide)).2.2.1) ⟨"gld", "11111111111111111", "alpha", false⟩
      (by decide) rfl).1 (by decide)
  · exact ((handleDiscordIpc_authorization [⟨"gld", "11111111111111111", "alpha", false⟩]
      true "main" true "/data" "r3" "22222222222222222" "hi" (some "main") (some true)
      (by decide) (by decide) (by decide)).1) (by decide)

/-- Counterexample for C3: a concrete claimed `discord_send` request with a
requestId.  The dispatcher writes exactly one Result file, but at
`{dataDir}/ipc/{sourceGroup}/discord_results/{requestId}.json`, not at the
claimed `{dataDir}/ipc/{sourceGroup}/results/{requestId}.json`. -/
theorem handleDiscordIpc_results_dir_cex :
    (handleDiscordIpc [] true
        ⟨some "discord_send", some "r1", some "123", some "hi", none, none⟩
        "grp" true "/data").handled = true ∧
    ((handleDiscordIpc [] true
        ⟨some "discord_send", some "r1", some "123", some "hi", none, none⟩
        "grp" true "/data").writes.map (fun w => w.path)) =
      ["/data/ipc/grp/discord_results/r1.json"] ∧
    ((handleDiscordIpc [] true
        ⟨some "discord_send", some "r1", some "123", some "hi", none, none⟩
        "grp" true "/data").writes.map (fun w => w.path)) ≠
      ["/data/ipc/grp/results/r1.json"] := by
  decide

/-- Reduction of `handleDiscordIpc` on a `discord_send` request with a
truthy requestId but arbitrary (possibly missing) `channelId`/`text`. -/
theorem handleDiscordIpc_send_general (mappings : List ChannelMapping)
    (sendOk : Bool) (sourceGroup : String) (isMain : Bool) (dataDir : String)
    (rid : String) (cid tx gf : Option String) (im : Option Bool)
    (hrid : rid ≠ "") :
    handleDiscordIpc mappings sendOk ⟨some "discord_send", some rid, cid, tx, gf, im⟩
        sourceGroup isMain dataDir =
      { handled := true
        writes := [{ path := resultPath dataDir sourceGroup rid,
                     result :=
                       if jsTruthy cid && jsTruthy tx then
                         discordSendGate mappings sourceGroup isMain sendOk (cid.getD "")
                       else { success := false, message := "Missing channelId or text" } }] } := by
  simp [handleDiscordIpc, jsTruthy_some hrid, strStartsWith]

/-- Claim C3 (amended): every request claimed by the dispatcher that carries
a requestId gets exactly one Result file, at the stable per-group path
`{dataDir}/ipc/{sourceGroup}/discord_results/{requestId}.json`, regardless of
validation failure, denial, or external-action failure. -/
theorem handleDiscordIpc_writes_once (mappings : List ChannelMapping)
    (sendOk : Bool) (data : IpcData) (sourceGroup : String) (isMain : Bool)
    (dataDir : String) (rid : String)
    (h1 : data.requestId = some rid) (h2 : rid ≠ "")
    (h3 : (handleDiscordIpc mappings sendOk data sourceGroup isMain dataDir).handled = true) :
    ∃ r : Result,
      (handleDiscordIpc mappings sendOk data sourceGroup isMain dataDir).writes =
        [⟨resultPath dataDir sourceGroup rid, r⟩] := by
  rcases data with ⟨ty, rq, cid, tx, gfd, imd⟩
  obtain rfl : rq = some rid := h1
  rcases ty with _ | t
  · exact absurd h3 (by simp [handleDiscordIpc])
  · by_cases ht : t = "discord_send"
    · subst ht
      rw [handleDiscordIpc_send_general mappings sendOk sourceGroup isMain dataDir rid cid tx gfd imd h2]
      exact ⟨_, rfl⟩
    · exact absurd h3 (by simp [handleDiscordIpc, jsTruthy_some h2, ht])

/-- Witness for C3 (amended): the denied request of the counterexample input
still produces its single Result file at the `discord_results` path. -/
theorem handleDiscordIpc_writes_once_witness :
    ∃ r : Result,
      (handleDiscordIpc [] false
          ⟨some "discord_send", some "r9", none, some "hi", none, none⟩
          "grp" false "/data").writes =
        [⟨resultPath "/data" "grp" "r9", r⟩] :=
  handleDiscordIpc_writes_once [] false
    ⟨some "discord_send", some "r9", none, some "hi", none, none⟩
    "grp" false "/data" "r9" rfl (by decide) (by decide)

/-- Claim C8: an agent-side `discord_send` invocation whose `channel_id` is
not a string of 17 to 20 decimal digits returns the invalid-format error and
performs no IPC side effect: no request file is written and no result is
awaited. -/
theorem discordSendTool_invalid_id (groupFolder : String) (isMain : Bool)
    (requestId : String) (awaitedResult : Result) (channelId text : String)
    (h : ¬ (17 ≤ channelId.length ∧ channelId.length ≤ 20 ∧
            channelId.data.all Char.isDigit = true)) :
    discordSendTool groupFolder isMain requestId awaitedResult channelId text =
      { replyText := "Invalid channel ID format. Discord channel IDs are 17-20 digit numbers."
        isError := true
        request := none
        awaited := false } := by
  have hv : isValidChannelId channelId = false := by
    cases hv : isValidChannelId channelId
    · rfl
    · exfalso
      apply h
      simpa [isValidChannelId, Bool.and_eq_true, decide_eq_true_eq, and_assoc] using hv
  simp [discordSendTool, hv]

/-- Witness for C8: a 4-character non-numeric channel id is rejected. -/
theorem discordSendTool_invalid_id_witness :
    discordSendTool "main" true "discord-send-1-aa" ⟨true, "Message sent"⟩ "12ab" "hello" =
      { replyText := "Invalid channel ID format. Discord channel IDs are 17-20 digit numbers."
        isError := true
        request := none
        awaited := false } :=
  discordSendTool_invalid_id "main" true "discord-send-1-aa" ⟨true, "Message sent"⟩
    "12ab" "hello" (by decide)

/-- An absolute path or a path containing `..` makes `validateGroupPath`
fail (before `resolve` — the model of any filesystem access — is consulted
for containment). -/
theorem validateGroupPath_rejects (resolve : String → String → String)
    (groupsDir rel groupFolder : String)
    (h : strStartsWith rel "/" = true ∨ includesDotDot rel = true) :
    ∃ e, validateGroupPath resolve groupsDir rel groupFolder = .error e := by
  unfold validateGroupPath
  by_cases h0 : rel = ""
  · exact ⟨_, by rw [if_pos h0]⟩
  · rw [if_neg h0]
    by_cases h1 : strStartsWith rel "/" = true
    · exact ⟨_, by rw [if_pos h1]⟩
    · rw [if_neg h1]
      have h2 : includesDotDot rel = true := by
        rcases h with h | h
        · exact absurd h h1
        · exact h
      rw [if_pos h2]
      exact ⟨_, rfl⟩

/-- Claim C7: for `write_file` and `read_file`, an absolute path or a path
containing `..` is rejected with an error string and no filesystem access
takes place; any path that passes validation resolves inside the caller's own
group directory; and a `write_file` whose content exceeds 100KB (utf-8 bytes)
is rejected before writing, with the cap (`100KB`) stated verbatim in the
error message. -/
theorem fileTools_containment_and_cap (resolve : String → String → String)
    (groupsDir : String) (fileContent : String → Option String)
    (groupFolder rel content : String) :
    ((strStartsWith rel "/" = true ∨ includesDotDot rel = true) →
      (∃ e, writeFileTool resolve groupsDir groupFolder rel content =
         { reply := "Error: " ++ e, written := none }) ∧
      (∃ e, readFileTool resolve groupsDir fileContent groupFolder rel =
         { reply := "Error: " ++ e, readPath := none }))
    ∧ (∀ resolved, validateGroupPath resolve groupsDir rel groupFolder = .ok resolved →
        resolved = groupsDir ++ "/" ++ groupFolder ∨
        strStartsWith resolved (groupsDir ++ "/" ++ groupFolder ++ "/") = true)
    ∧ (∀ resolved, validateGroupPath resolve groupsDir rel groupFolder = .ok resolved →
        MAX_FILE_SIZE < byteLength content →
        writeFileTool resolve groupsDir groupFolder rel content =
          { reply := "Error: Content exceeds maximum file size of 100KB",
            written := none }) := by
  refine ⟨?_, ?_, ?_⟩
  · intro h
    obtain ⟨e, he⟩ := validateGroupPath_rejects resolve groupsDir rel groupFolder h
    exact ⟨⟨e, by simp [writeFileTool, he]⟩, ⟨e, by simp [readFileTool, he]⟩⟩
  · intro resolved hok
    simp only [validateGroupPath] at hok
    split_ifs at hok with h0 h1 h2 h3
    injection hok with hre
    subst hre
    by_cases hsw : strStartsWith (resolve (groupsDir ++ "/" ++ groupFolder) rel)
        (groupsDir ++ "/" ++ groupFolder ++ "/") = true
    · exact Or.inr hsw
    · left
      have hswf : strStartsWith (resolve (groupsDir ++ "/" ++ groupFolder) rel)
          (groupsDir ++ "/" ++ groupFolder ++ "/") = false :=
        Bool.not_eq_true _ ▸ hsw
      simp only [Bool.and_eq_true, Bool.not_eq_true', bne_iff_ne, ne_eq, not_and,
        not_not] at h3
      exact h3 hswf
  · intro resolved hok hsize
    simp only [writeFileTool, hok]
    rw [if_pos hsize]
    have h100 : toString (MAX_FILE_SIZE / 1024) = "100" := by decide
    rw [h100]
    decide

/-- Witness for C7: a `..` path and an absolute path are rejected with no
write, and a 100KB+1 payload to a valid path is rejected with the cap in the
message. -/
theorem fileTools_containment_and_cap_witness :
    (∃ e, writeFileTool (fun d r => d ++ "/" ++ r) "/groups" "g" "../../etc/passwd" "x" =
       { reply := "Error: " ++ e, written := none }) ∧
    (∃ e, writeFileTool (fun d r => d ++ "/" ++ r) "/groups" "g" "/etc/passwd" "x" =
       { reply := "Error: " ++ e, written := none }) ∧
    writeFileTool (fun d r => d ++ "/" ++ r) "/groups" "g" "notes.txt" bigContent =
      { reply := "Error: Content exceeds maximum file size of 100KB", written := none } := by
  have hb : byteLength bigContent = 102401 := by
    have h1 : bigContent.data = List.replicate 102401 'a' := rfl
    rw [byteLength, h1, List.map_replicate, List.sum_replicate, smul_eq_mul,
      show Char.utf8Size 'a' = 1 by decide, mul_one]
  refine ⟨?_, ?_, ?_⟩
  · exact ((fileTools_containment_and_cap (fun d r => d ++ "/" ++ r) "/groups"
      (fun _ => none) "g" "../../etc/passwd" "x").1 (Or.inr (by decide))).1
  · exact ((fileTools_containment_and_cap (fun d r => d ++ "/" ++ r) "/groups"
      (fun _ => none) "g" "/etc/passwd" "x").1 (Or.inl (by decide))).1
  · exact (fileTools_containment_and_cap (fun d r => d ++ "/" ++ r) "/groups"
      (fun _ => none) "g" "notes.txt" bigContent).2.2 "/groups/g/notes.txt" rfl
      (by rw [hb]; decide)

/-- If every poll strictly before `maxWait` sees no file, the wait loop times
out (whatever is on disk at or after `maxWait` is never examined). -/
theorem waitForResultAux_timeout (fileAt : Nat → FileObs) (maxWait : Nat) :
    ∀ (fuel elapsed k : Nat), maxWait - elapsed ≤ fuel →
    (∀ j, elapsed + 500 * j < maxWait → fileAt (k + j) = .absent) →
    waitForResultAux fileAt k elapsed maxWait =
      ({ success := false, message := "Request timed out" }, false) := by
  intro fuel
  induction fuel with
  | zero =>
    intro elapsed k hf _
    rw [waitForResultAux, if_neg (by omega)]
  | succ fuel ih =>
    intro elapsed k hf habs
    rw [waitForResultAux]
    by_cases hlt : elapsed < maxWait
    · rw [if_pos hlt]
      have h0 : fileAt k = .absent := by
        have h := habs 0 (by omega)
        simpa using h
      rw [h0]
      exact ih (elapsed + 500) (k + 1) (by omega) (fun j hj => by
        have h := habs (j + 1) (by omega)
        rwa [show k + (j + 1) = k + 1 + j from by omega] at h)
    · rw [if_neg hlt]

/-- Skipping `j` absent polls advances the loop to poll `j`. -/
theorem waitForResultAux_skip (fileAt : Nat → FileObs) (maxWait : Nat) :
    ∀ (j elapsed k : Nat), elapsed + 500 * j < maxWait →
    (∀ i, i < j → fileAt (k + i) = .absent) →
    waitForResultAux fileAt k elapsed maxWait =
      waitForResultAux fileAt (k + j) (elapsed + 500 * j) maxWait := by
  intro j
  induction j with
  | zero => intro elapsed k _ _; simp
  | succ j ih =>
    intro elapsed k hlt habs
    rw [waitForResultAux, if_pos (by omega)]
    have h0 : fileAt k = .absent := by
      have h := habs 0 (by omega)
      simpa using h
    rw [h0]
    have h := ih (elapsed + 500) (k + 1) (by omega) (fun i hi => by
      have h := habs (i + 1) (by omega)
      rwa [show k + (i + 1) = k + 1 + i from by omega] at h)
    rw [h, show k + 1 + j = k + (j + 1) from by omega,
      show elapsed + 500 + 500 * j = elapsed + 500 * (j + 1) from by omega]

/-- Claim C2: `waitForResult` polls every 500 ms for the result file.  If no
poll within `maxWait` sees it, the waiter returns
`{success:false, message:"Request timed out"}` — regardless of any file
appearing at or after the deadline, which is never examined, so a late Result
is not delivered.  The first poll `j` that sees the file either parses it,
deletes it and returns the parsed Result, or — if parsing throws `e` —
returns `{success:false, message:"Failed to read result: <e>"}` without
retrying and without deleting. -/
theorem waitForResult_spec (fileAt : Nat → FileObs) (maxWait : Nat) :
    ((∀ k, 500 * k < maxWait → fileAt k = .absent) →
      waitForResult fileAt maxWait =
        ({ success := false, message := "Request timed out" }, false))
    ∧ (∀ j r, 500 * j < maxWait → (∀ i, i < j → fileAt i = .absent) →
        fileAt j = .present (.ok r) →
        waitForResult fileAt maxWait = (r, true))
    ∧ (∀ j e, 500 * j < maxWait → (∀ i, i < j → fileAt i = .absent) →
        fileAt j = .present (.error e) →
        waitForResult fileAt maxWait =
          ({ success := false, message := "Failed to read result: " ++ e }, false)) := by
  refine ⟨?_, ?_, ?_⟩
  · intro habs
    exact waitForResultAux_timeout fileAt maxWait maxWait 0 0 (by omega)
      (fun j hj => by simpa using habs j (by omega))
  · intro j r hj habs hobs
    have h := waitForResultAux_skip fileAt maxWait j 0 0 (by omega)
      (fun i hi => by simpa using habs i hi)
    rw [waitForResult, h]
    rw [waitForResultAux, if_pos (by omega)]
    simp only [Nat.zero_add]
    rw [hobs]
  · intro j e hj habs hobs
    have h := waitForResultAux_skip fileAt maxWait j 0 0 (by omega)
      (fun i hi => by simpa using habs i hi)
    rw [waitForResult, h]
    rw [waitForResultAux, if_pos (by omega)]
    simp only [Nat.zero_add]
    rw [hobs]

/-- Witness for C2: an always-absent trace times out; a trace whose file
appears at poll 3 delivers the parsed Result; a file that appears only at or
after the deadline is never delivered. -/
theorem waitForResult_spec_witness :
    waitForResult (fun _ => .absent) 30000 =
      ({ success := false, message := "Request timed out" }, false) ∧
    waitForResult (fun k => if k = 3 then .present (.ok ⟨true, "Message sent"⟩) else .absent)
        30000 = (⟨true, "Message sent"⟩, true) ∧
    waitForResult (fun k => if k ≥ 4 then .present (.ok ⟨true, "late"⟩) else .absent)
        2000 = ({ success := false, message := "Request timed out" }, false) := by
  refine ⟨?_, ?_, ?_⟩
  · exact (waitForResult_spec (fun _ => .absent) 30000).1 (fun k _ => rfl)
  · exact (waitForResult_spec _ 30000).2.1 3 ⟨true, "Message sent"⟩ (by omega)
      (fun i hi => by simp; omega) (by simp)
  · exact (waitForResult_spec _ 2000).1 (fun k hk => by
      simp only [ge_iff_le, ite_eq_right_iff]
      intro h4
      omega)

theorem lastIdx_fold_le (l : List Char) (c : Char) (pos : Nat) :
    ∀ (xs : List Nat) (acc : Option Nat),
      (∀ i, acc = some i → i ≤ pos) → (∀ x ∈ xs, x ≤ pos) →
      ∀ i, xs.foldl (fun acc i => if l.getD i c = c then some i else acc) acc = some i →
        i ≤ pos := by
  intro xs
  induction xs with
  | nil => intro acc hacc _ i h; exact hacc i h
  | cons x xs ih =>
    intro acc hacc hmem i h
    rw [List.foldl_cons] at h
    refine ih _ ?_ (fun y hy => hmem y (List.mem_cons_of_mem x hy)) i h
    intro i' h'
    by_cases hc : l.getD x c = c
    · rw [if_pos hc] at h'
      injection h' with h'
      subst h'
      exact hmem x (List.mem_cons_self x xs)
    · rw [if_neg hc] at h'
      exact hacc i' h'

/-- `lastIndexOf(c, pos)` never returns an index beyond `pos`. -/
theorem lastIdxLe_le (l : List Char) (c : Char) (pos : Nat) (i : Nat)
    (h : lastIdxLe l c pos = some i) : i ≤ pos := by
  unfold lastIdxLe at h
  refine lastIdx_fold_le l c pos _ none (fun i hi => absurd hi (by simp))
    (fun x hx => ?_) i h
  have := List.mem_range.mp hx
  omega

theorem resolveIdx_some {m : Nat} {o : Option Nat} {i : Nat}
    (h : resolveIdx m o = some i) : o = some i ∧ m ≤ 2 * i := by
  cases o with
  | none => exact absurd h (by simp [resolveIdx])
  | some j =>
    simp only [resolveIdx] at h
    by_cases hj : 2 * j < m
    · rw [if_pos hj] at h
      exact absurd h (by simp)
    · rw [if_neg hj] at h
      injection h with h
      subst h
      exact ⟨rfl, by omega⟩

/-- The chosen split index never exceeds `maxLength`. -/
theorem splitIdx_le (l : List Char) (m : Nat) : splitIdx l m ≤ m := by
  unfold splitIdx
  cases h1 : resolveIdx m (lastIdxLe l '\n' m) with
  | some i => exact lastIdxLe_le l '\n' m i (resolveIdx_some h1).1
  | none =>
    cases h2 : resolveIdx m (lastIdxLe l ' ' m) with
    | some i => exact lastIdxLe_le l ' ' m i (resolveIdx_some h2).1
    | none => exact le_refl m

/-- The chosen split index is at least `maxLength / 2` (so at least 1000 for
the default 2000, which makes the loop progress). -/
theorem splitIdx_half (l : List Char) (m : Nat) : m ≤ 2 * splitIdx l m := by
  unfold splitIdx
  cases h1 : resolveIdx m (lastIdxLe l '\n' m) with
  | some i => exact (resolveIdx_some h1).2
  | none =>
    cases h2 : resolveIdx m (lastIdxLe l ' ' m) with
    | some i => exact (resolveIdx_some h2).2
    | none => simp; omega

theorem splitGo_spec : ∀ (fuel : Nat) (l : List Char), l.length ≤ fuel →
    (l ≠ [] → splitGo 2000 fuel l ≠ []) ∧
    (∀ c ∈ splitGo 2000 fuel l, c.length ≤ 2000) := by
  intro fuel
  induction fuel with
  | zero =>
    intro l hl
    refine ⟨fun hne => absurd (List.length_eq_zero.mp (by omega)) hne, ?_⟩
    intro c hc
    exact absurd hc (by simp [splitGo])
  | succ fuel ih =>
    intro l hl
    by_cases h0 : l.length = 0
    · refine ⟨fun hne => absurd (List.length_eq_zero.mp h0) hne, ?_⟩
      intro c hc
      exact absurd hc (by simp [splitGo, h0])
    · by_cases h1 : l.length ≤ 2000
      · refine ⟨fun _ => by simp [splitGo, h0, h1], ?_⟩
        intro c hc
        simp only [splitGo, h0, if_false, h1, if_true, if_neg h0, if_pos h1,
          List.mem_singleton] at hc
        subst hc
        exact h1
      · have hi_le : splitIdx l 2000 ≤ 2000 := splitIdx_le l 2000
        have hi_half : 2000 ≤ 2 * splitIdx l 2000 := splitIdx_half l 2000
        have hrest : ((l.drop (splitIdx l 2000)).dropWhile jsWhitespace).length ≤ fuel := by
          have hd : (l.drop (splitIdx l 2000)).length = l.length - splitIdx l 2000 :=
            List.length_drop _ _
          have hdw : ((l.drop (splitIdx l 2000)).dropWhile jsWhitespace).length ≤
              (l.drop (splitIdx l 2000)).length :=
            (List.dropWhile_sublist jsWhitespace).length_le
          omega
        obtain ⟨_, ihmem⟩ := ih _ hrest
        have hstep : splitGo 2000 (fuel + 1) l =
            l.take (splitIdx l 2000) ::
              splitGo 2000 fuel ((l.drop (splitIdx l 2000)).dropWhile jsWhitespace) := by
          simp [splitGo, h0, h1]
        refine ⟨fun _ => by simp [hstep], ?_⟩
        intro c hc
        rw [hstep, List.mem_cons] at hc
        rcases hc with rfl | hc
        · have := List.length_take (splitIdx l 2000) l
          omega
        · exact ihmem c hc

/-- Claim C10: with the default `maxLength = 2000`, `splitMessage` returns a
non-empty list of chunks, every chunk has length at most 2000, and a text of
length at most 2000 is returned unchanged as the one-element list `[text]`. -/
theorem splitMessage_spec (text : String) :
    splitMessage text 2000 ≠ [] ∧
    (∀ c ∈ splitMessage text 2000, c.length ≤ 2000) ∧
    (text.length ≤ 2000 → splitMessage text 2000 = [text]) := by
  by_cases h : text.length ≤ 2000
  · refine ⟨by simp [splitMessage, h], ?_, fun _ => by simp [splitMessage, h]⟩
    intro c hc
    simp only [splitMessage, if_pos h, List.mem_singleton] at hc
    subst hc
    exact h
  · have hlen : 2000 < text.data.length := by
      have hx : text.length = text.data.length := rfl
      omega
    obtain ⟨hne, hmem⟩ := splitGo_spec text.data.length text.data (le_refl _)
    refine ⟨?_, ?_, fun hc => absurd hc h⟩
    · simp only [splitMessage, if_neg h, ne_eq, List.map_eq_nil_iff]
      exact hne (by intro hn; rw [hn] at hlen; simp at hlen)
    · intro c hc
      simp only [splitMessage, if_neg h, List.mem_map] at hc
      obtain ⟨c', hc', rfl⟩ := hc
      have hcl : (String.mk c').length = c'.length := rfl
      rw [hcl]
      exact hmem c' hc'

/-- Witness for C10: a short text is returned as a single chunk. -/
theorem splitMessage_spec_witness :
    splitMessage "build complete" 2000 = ["build complete"] :=
  (splitMessage_spec "build complete").2.2 (by decide)

/-- The tool-call processing loop never touches the completion-call index and
only appends to the message list. -/
theorem procCalls_fields (execTool : Nat → String) :
    ∀ (calls : List ToolCallM) (st : LoopState) (aborted : Bool),
      (procCalls execTool st aborted calls).1.callIdx = st.callIdx ∧
      ∃ t, (procCalls execTool st aborted calls).1.messages = st.messages ++ t := by
  intro calls
  induction calls with
  | nil =>
    intro st a
    exact ⟨rfl, [], by simp [procCalls]⟩
  | cons tc rest ih =>
    intro st a
    rw [procCalls]
    split
    · obtain ⟨hidx, t, hmsg⟩ := ih _ true
      refine ⟨hidx, stopMsg tc.name tc.id :: t, ?_⟩
      rw [hmsg]
      simp
    · obtain ⟨hidx, t, hmsg⟩ := ih _ a
      refine ⟨hidx, toolMsg (truncateResult (execTool st.execIdx)) tc.id :: t, ?_⟩
      rw [hmsg]
      simp

/-- Exit shape of the loop: an error exit returns no result and does not
save; a success exit saves exactly the final message list minus its first
element, and the final message list extends the initial one. -/
theorem runLoop_shape (complete : Nat → Except String AssistantMsg)
    (execTool : Nat → String) :
    ∀ (fuel : Nat) (st : LoopState),
      ((runLoop complete execTool fuel st).status = .error →
        (runLoop complete execTool fuel st).result = none ∧
        (runLoop complete execTool fuel st).saved = none) ∧
      ((runLoop complete execTool fuel st).status = .success →
        (runLoop complete execTool fuel st).saved =
          some ((runLoop complete execTool fuel st).finalMessages.drop 1) ∧
        ∃ t, (runLoop complete execTool fuel st).finalMessages = st.messages ++ t) := by
  intro fuel
  induction fuel with
  | zero =>
    intro st
    cases hc : complete st.callIdx with
    | error e =>
      refine ⟨fun _ => by simp [runLoop, hc], fun hs => ?_⟩
      rw [runLoop] at hs
      rw [hc] at hs
      exact absurd hs (by simp)
    | ok fin =>
      refine ⟨fun he => ?_, fun _ => ?_⟩
      · rw [runLoop] at he
        rw [hc] at he
        exact absurd he (by simp)
      · refine ⟨by simp [runLoop, hc], [], by simp [runLoop, hc]⟩
  | succ fuel ih =>
    intro st
    cases hc : complete st.callIdx with
    | error e =>
      refine ⟨fun _ => by simp [runLoop, hc], fun hs => ?_⟩
      rw [runLoop] at hs
      rw [hc] at hs
      exact absurd hs (by simp)
    | ok am =>
      by_cases ht : am.toolCalls = []
      · refine ⟨fun he => ?_, fun _ => ?_⟩
        · rw [runLoop] at he
          rw [hc] at he
          simp only [ht, if_pos rfl] at he
          exact absurd he (by simp)
        · constructor
          · simp [runLoop, hc, ht]
          · exact ⟨[assistantMsgOf am], by simp [runLoop, hc, ht]⟩
      · obtain ⟨hidx, t0, hmsg⟩ := procCalls_fields execTool am.toolCalls
          { st with messages := st.messages ++ [assistantMsgOf am], callIdx := st.callIdx + 1 }
          false
        rcases hp : procCalls execTool
            { st with messages := st.messages ++ [assistantMsgOf am], callIdx := st.callIdx + 1 }
            false am.toolCalls with ⟨st2, ab⟩
        rw [hp] at hmsg
        have hmsg2 : st2.messages = st.messages ++ ([assistantMsgOf am] ++ t0) := by
          rw [hmsg]
          simp
        cases ab with
        | true =>
          cases hc2 : complete st2.callIdx with
          | error e =>
            refine ⟨fun _ => by simp [runLoop, hc, ht, hp, hc2], fun hs => ?_⟩
            rw [runLoop] at hs
            rw [hc] at hs
            simp only [ht, if_neg ht, hp] at hs
            rw [hc2] at hs
            exact absurd hs (by simp)
          | ok fin =>
            refine ⟨fun he => ?_, fun _ => ?_⟩
            · rw [runLoop] at he
              rw [hc] at he
              simp only [ht, if_neg ht, hp] at he
              rw [hc2] at he
              exact absurd he (by simp)
            · constructor
              · simp [runLoop, hc, ht, hp, hc2]
              · exact ⟨[assistantMsgOf am] ++ t0, by simp [runLoop, hc, ht, hp, hc2, hmsg2]⟩
        | false =>
          have hred : runLoop complete execTool (fuel + 1) st =
              runLoop complete execTool fuel st2 := by
            rw [runLoop]
            rw [hc]
            simp only [if_neg ht, hp]
          rw [hred]
          obtain ⟨herr, hsucc⟩ := ih st2
          refine ⟨herr, fun hs => ?_⟩
          obtain ⟨hsave, t1, hfin⟩ := hsucc hs
          refine ⟨hsave, [assistantMsgOf am] ++ t0 ++ t1, ?_⟩
          rw [hfin, hmsg2]
          simp

/-- Claim C9: if the agent loop exits through its error path, it returns a
null result and `saveSession` is never called — the stored session is
untouched by the failed invocation. -/
theorem runLocalAgent_error_no_save (complete : Nat → Except String AssistantMsg)
    (execTool : Nat → String) (systemPrompt prompt : String)
    (history : List ChatMessage)
    (h : (runLocalAgent complete execTool systemPrompt prompt history).status = .error) :
    (runLocalAgent complete execTool systemPrompt prompt history).result = none ∧
    (runLocalAgent complete execTool systemPrompt prompt history).saved = none :=
  (runLoop_shape complete execTool MAX_TOOL_ITERATIONS _).1 h

/-- Witness for C9: a completion endpoint that throws on the first call. -/
theorem runLocalAgent_error_no_save_witness :
    (runLocalAgent (fun _ => .error "fetch failed") (fun _ => "ok") "s" "p" []).result = none ∧
    (runLocalAgent (fun _ => .error "fetch failed") (fun _ => "ok") "s" "p" []).saved = none :=
  runLocalAgent_error_no_save (fun _ => .error "fetch failed") (fun _ => "ok") "s" "p" []
    (by decide)

/-- Claim C6: the replayed history is trimmed to the most recent 20 messages
on load (all of them if fewer than 20); on every successful exit the session
is persisted wholesale as the final message list minus only its leading
system message — no trimming on save, so the saved history keeps the full
accumulated list (trimmed replay + new user message + everything appended). -/
theorem runLocalAgent_session (complete : Nat → Except String AssistantMsg)
    (execTool : Nat → String) (systemPrompt prompt : String)
    (history : List ChatMessage) :
    (history.length ≤ MAX_HISTORY → trimHistory history = history) ∧
    (MAX_HISTORY < history.length →
      trimHistory history = history.drop (history.length - MAX_HISTORY) ∧
      (trimHistory history).length = MAX_HISTORY) ∧
    ((runLocalAgent complete execTool systemPrompt prompt history).status = .success →
      (runLocalAgent complete execTool systemPrompt prompt history).saved =
        some ((runLocalAgent complete execTool systemPrompt prompt history).finalMessages.drop 1) ∧
      ∃ t, (runLocalAgent complete execTool systemPrompt prompt history).finalMessages =
        systemMsg systemPrompt :: (trimHistory history ++ [userMsg prompt]) ++ t) := by
  refine ⟨?_, ?_, ?_⟩
  · intro h
    unfold trimHistory
    rw [show history.length - MAX_HISTORY = 0 from by omega]
    exact List.drop_zero history
  · intro h
    refine ⟨rfl, ?_⟩
    rw [trimHistory, List.length_drop]
    omega
  · intro hs
    have h := (runLoop_shape complete execTool MAX_TOOL_ITERATIONS _).2 hs
    obtain ⟨hsave, t, hfin⟩ := h
    exact ⟨hsave, t, by simpa using hfin⟩

/-- Witness for C6: a 21-message stored history replays as exactly 20, and a
run completing immediately in plain text saves tail of the final messages. -/
theorem runLocalAgent_session_witness :
    (trimHistory (List.replicate 21 (userMsg "x"))).length = MAX_HISTORY ∧
    (runLocalAgent (fun _ => .ok ⟨some "hi", []⟩) (fun _ => "ok") "s" "p"
        (List.replicate 21 (userMsg "x"))).saved =
      some ((runLocalAgent (fun _ => .ok ⟨some "hi", []⟩) (fun _ => "ok") "s" "p"
        (List.replicate 21 (userMsg "x"))).finalMessages.drop 1) := by
  refine ⟨?_, ?_⟩
  · exact ((runLocalAgent_session (fun _ => .ok ⟨some "hi", []⟩) (fun _ => "ok") "s" "p"
      (List.replicate 21 (userMsg "x"))).2.1 (by decide)).2
  · exact ((runLocalAgent_session (fun _ => .ok ⟨some "hi", []⟩) (fun _ => "ok") "s" "p"
      (List.replicate 21 (userMsg "x"))).2.2 (by decide)).1

/-- Invariant of the tool-call processing loop: the number of executions of
each tool name stays at or below both its cap and its counter. -/
theorem procCalls_execBound (execTool : Nat → String) :
    ∀ (calls : List ToolCallM) (st : LoopState) (aborted : Bool),
      (∀ nm, st.executed.count nm ≤ capOf nm ∧ st.executed.count nm ≤ st.counts nm) →
      (∀ nm, (procCalls execTool st aborted calls).1.executed.count nm ≤ capOf nm ∧
             (procCalls execTool st aborted calls).1.executed.count nm ≤
               (procCalls execTool st aborted calls).1.counts nm) := by
  intro calls
  induction calls with
  | nil =>
    intro st a h
    simpa [procCalls] using h
  | cons tc rest ih =>
    intro st a h
    rw [procCalls]
    split
    · apply ih
      intro nm
      obtain ⟨h1, h2⟩ := h nm
      refine ⟨h1, ?_⟩
      dsimp only
      by_cases hnm : nm = tc.name
      · rw [if_pos hnm]
        omega
      · rw [if_neg hnm]
        exact h2
    · next hguard =>
      apply ih
      intro nm
      obtain ⟨h1, h2⟩ := h nm
      have hcntapp : ∀ (l : List String) (x : String),
          (l ++ [x]).count nm = l.count nm + if x = nm then 1 else 0 := by
        intro l x
        simp [List.count_append, List.count_cons, beq_iff_eq]
      have hg : st.counts tc.name + 1 ≤ capOf tc.name := by
        simpa [Nat.not_lt] using hguard
      by_cases hnm : nm = tc.name
      · subst hnm
        constructor
        · dsimp only
          rw [hcntapp, if_pos rfl]
          omega
        · dsimp only
          rw [hcntapp, if_pos rfl, if_pos rfl]
          omega
      · have hne : ¬ tc.name = nm := fun hx => hnm hx.symm
        constructor
        · dsimp only
          rw [hcntapp, if_neg hne]
          simpa using h1
        · dsimp only
          rw [hcntapp, if_neg hne, if_neg hnm]
          simpa using h2

/-- The per-tool execution bound holds through the whole loop. -/
theorem runLoop_execBound (complete : Nat → Except String AssistantMsg)
    (execTool : Nat → String) :
    ∀ (fuel : Nat) (st : LoopState),
      (∀ nm, st.executed.count nm ≤ capOf nm ∧ st.executed.count nm ≤ st.counts nm) →
      ∀ nm, (runLoop complete execTool fuel st).executed.count nm ≤ capOf nm := by
  intro fuel
  induction fuel with
  | zero =>
    intro st h nm
    cases hc : complete st.callIdx with
    | error e => simpa [runLoop, hc] using (h nm).1
    | ok fin => simpa [runLoop, hc] using (h nm).1
  | succ fuel ih =>
    intro st h nm
    cases hc : complete st.callIdx with
    | error e => simpa [runLoop, hc] using (h nm).1
    | ok am =>
      by_cases ht : am.toolCalls = []
      · simpa [runLoop, hc, ht] using (h nm).1
      · have hbound := procCalls_execBound execTool am.toolCalls
          { st with messages := st.messages ++ [assistantMsgOf am], callIdx := st.callIdx + 1 }
          false h
        rcases hp : procCalls execTool
            { st with messages := st.messages ++ [assistantMsgOf am], callIdx := st.callIdx + 1 }
            false am.toolCalls with ⟨st2, ab⟩
        rw [hp] at hbound
        cases ab with
        | true =>
          cases hc2 : complete st2.callIdx with
          | error e => simpa [runLoop, hc, ht, hp, hc2] using (hbound nm).1
          | ok fin => simpa [runLoop, hc, ht, hp, hc2] using (hbound nm).1
        | false =>
          have hred : runLoop complete execTool (fuel + 1) st =
              runLoop complete execTool fuel st2 := by
            rw [runLoop]
            rw [hc]
            simp only [if_neg ht, hp]
          rw [hred]
          exact ih st2 (fun nm2 => hbound nm2) nm

/-- Claim C5: in any single invocation a given tool name is executed at most
`capOf` times (3, or 2 for `send_message`), quantified over every completion
oracle; and on the concrete oracles that repeat one call forever, the attempt
exceeding the cap is not executed but replaced by the synthetic stop message
carrying the call's id, after which the loop makes exactly one forced
no-tool completion call and terminates successfully with the fallback text,
never executing the capped tool again. -/
theorem perTool_guardrail (complete : Nat → Except String AssistantMsg)
    (execTool : Nat → String) (systemPrompt prompt : String)
    (history : List ChatMessage) (nm : String) :
    ((runLocalAgent complete execTool systemPrompt prompt history).executed.count nm ≤
      capOf nm) ∧
    ((runLocalAgent (fun _ => .ok ⟨none, [⟨"c1", "send_message", "{}"⟩]⟩) (fun _ => "ok")
        "s" "p" []).executed = List.replicate (capOf "send_message") "send_message" ∧
     (runLocalAgent (fun _ => .ok ⟨none, [⟨"c1", "send_message", "{}"⟩]⟩) (fun _ => "ok")
        "s" "p" []).offeringCalls = capOf "send_message" + 1 ∧
     (runLocalAgent (fun _ => .ok ⟨none, [⟨"c1", "send_message", "{}"⟩]⟩) (fun _ => "ok")
        "s" "p" []).forcedCall = true ∧
     stopMsg "send_message" "c1" ∈
       (runLocalAgent (fun _ => .ok ⟨none, [⟨"c1", "send_message", "{}"⟩]⟩) (fun _ => "ok")
        "s" "p" []).finalMessages ∧
     (runLocalAgent (fun _ => .ok ⟨none, [⟨"c1", "send_message", "{}"⟩]⟩) (fun _ => "ok")
        "s" "p" []).status = .success ∧
     (runLocalAgent (fun _ => .ok ⟨none, [⟨"c1", "send_message", "{}"⟩]⟩) (fun _ => "ok")
        "s" "p" []).result =
       some "Sorry, I had trouble processing that. Please try again.") ∧
    ((runLocalAgent (fun _ => .ok ⟨none, [⟨"c2", "ebay_search", "{}"⟩]⟩) (fun _ => "ok")
        "s" "p" []).executed = List.replicate (capOf "ebay_search") "ebay_search" ∧
     (runLocalAgent (fun _ => .ok ⟨none, [⟨"c2", "ebay_search", "{}"⟩]⟩) (fun _ => "ok")
        "s" "p" []).offeringCalls = capOf "ebay_search" + 1 ∧
     (runLocalAgent (fun _ => .ok ⟨none, [⟨"c2", "ebay_search", "{}"⟩]⟩) (fun _ => "ok")
        "s" "p" []).forcedCall = true ∧
     stopMsg "ebay_search" "c2" ∈
       (runLocalAgent (fun _ => .ok ⟨none, [⟨"c2", "ebay_search", "{}"⟩]⟩) (fun _ => "ok")
        "s" "p" []).finalMessages ∧
     (runLocalAgent (fun _ => .ok ⟨none, [⟨"c2", "ebay_search", "{}"⟩]⟩) (fun _ => "ok")
        "s" "p" []).status = .success) := by
  refine ⟨?_, by decide, by decide⟩
  exact runLoop_execBound complete execTool MAX_TOOL_ITERATIONS _
    (fun nm2 => by simp) nm

/-- If the counters plus this response's tool-call multiset stay within every
cap, processing the calls trips no guardrail and adds exactly the occurrence
counts. -/
theorem procCalls_noTrip (execTool : Nat → String) :
    ∀ (calls : List ToolCallM) (st : LoopState),
      (∀ nm, st.counts nm + occCount nm calls ≤ capOf nm) →
      (procCalls execTool st false calls).2 = false ∧
      (∀ nm, (procCalls execTool st false calls).1.counts nm =
        st.counts nm + occCount nm calls) := by
  intro calls
  induction calls with
  | nil =>
    intro st h
    exact ⟨rfl, fun nm => by simp [procCalls, occCount]⟩
  | cons tc rest ih =>
    intro st h
    have hocc1 : ∀ nm, occCount nm (tc :: rest) =
        occCount nm rest + if tc.name = nm then 1 else 0 := by
      intro nm
      simp [occCount, List.count_cons, beq_iff_eq]
    rw [procCalls]
    split
    · next hguard =>
      exfalso
      have hg2 : capOf tc.name < st.counts tc.name + 1 := by simpa using hguard
      have hh := h tc.name
      rw [hocc1 tc.name, if_pos rfl] at hh
      omega
    · next hguard =>
      have hyp : ∀ nm,
          (if nm = tc.name then st.counts nm + 1 else st.counts nm) + occCount nm rest ≤
            capOf nm := by
        intro nm
        have hh := h nm
        rw [hocc1 nm] at hh
        by_cases hnm : nm = tc.name
        · rw [if_pos hnm]
          rw [if_pos hnm.symm] at hh
          omega
        · rw [if_neg hnm]
          rw [if_neg (fun hx => hnm hx.symm)] at hh
          omega
      obtain ⟨hab, hcounts⟩ := ih
        { st with counts := fun n => if n = tc.name then st.counts n + 1 else st.counts n,
                  messages := st.messages ++ [toolMsg (truncateResult (execTool st.execIdx)) tc.id],
                  execIdx := st.execIdx + 1,
                  executed := st.executed ++ [tc.name] } hyp
      refine ⟨hab, fun nm => ?_⟩
      rw [hcounts nm, hocc1 nm]
      dsimp only
      by_cases hnm : nm = tc.name
      · rw [if_pos hnm, if_pos hnm.symm]
        omega
      · rw [if_neg hnm, if_neg (fun hx => hnm hx.symm)]
        omega

/-- If the completion endpoint keeps returning tool calls for ten iterations
and no per-tool counter ever exceeds its cap, the loop runs all ten
iterations, then makes the forced no-tool call (index 10), saves, and
succeeds with that call's text or the fixed fallback. -/
theorem runLoop_budget (complete : Nat → Except String AssistantMsg)
    (execTool : Nat → String) (am : Nat → AssistantMsg) (fin : AssistantMsg)
    (hok : ∀ k, k < 10 → complete k = .ok (am k))
    (hcalls : ∀ k, k < 10 → (am k).toolCalls ≠ [])
    (hfin : complete 10 = .ok fin) :
    ∀ (fuel : Nat) (st : LoopState), fuel ≤ 10 → st.callIdx = 10 - fuel →
      (∀ nm, st.counts nm +
        ((List.range' (10 - fuel) fuel).map fun k => occCount nm (am k).toolCalls).sum ≤
          capOf nm) →
      (runLoop complete execTool fuel st).offeringCalls = 10 ∧
      (runLoop complete execTool fuel st).forcedCall = true ∧
      (runLoop complete execTool fuel st).status = .success ∧
      (runLoop complete execTool fuel st).result =
        some (if fin.content.getD "" = "" then "I reached my processing limit. Please try again."
              else fin.content.getD "") ∧
      (runLoop complete execTool fuel st).saved =
        some ((runLoop complete execTool fuel st).finalMessages.drop 1) := by
  intro fuel
  induction fuel with
  | zero =>
    intro st _ hci _
    have h10 : st.callIdx = 10 := by omega
    refine ⟨?_, ?_, ?_, ?_, ?_⟩ <;> simp [runLoop, h10, hfin]
  | succ fuel ih =>
    intro st hf hci hcap
    have hlt : 10 - (fuel + 1) < 10 := by omega
    have hcidx : complete st.callIdx = .ok (am (10 - (fuel + 1))) := by
      rw [hci]
      exact hok _ hlt
    have htc : (am (10 - (fuel + 1))).toolCalls ≠ [] := hcalls _ hlt
    have hsplit : ∀ nm, st.counts nm + occCount nm (am (10 - (fuel + 1))).toolCalls +
        ((List.range' (10 - fuel) fuel).map fun k => occCount nm (am k).toolCalls).sum ≤
          capOf nm := by
      intro nm
      have hh := hcap nm
      rw [List.range'_succ] at hh
      rw [show 10 - (fuel + 1) + 1 = 10 - fuel from by omega] at hh
      rw [List.map_cons, List.sum_cons] at hh
      omega
    have hyp1 : ∀ nm,
        (LoopState.mk (st.messages ++ [assistantMsgOf (am (10 - (fuel + 1)))]) st.counts
          (st.callIdx + 1) st.execIdx st.executed).counts nm +
          occCount nm (am (10 - (fuel + 1))).toolCalls ≤ capOf nm := by
      intro nm
      have hh := hsplit nm
      dsimp only
      omega
    obtain ⟨hab, hcounts⟩ := procCalls_noTrip execTool (am (10 - (fuel + 1))).toolCalls
      (LoopState.mk (st.messages ++ [assistantMsgOf (am (10 - (fuel + 1)))]) st.counts
        (st.callIdx + 1) st.execIdx st.executed) hyp1
    obtain ⟨hidx, -⟩ := procCalls_fields execTool (am (10 - (fuel + 1))).toolCalls
      (LoopState.mk (st.messages ++ [assistantMsgOf (am (10 - (fuel + 1)))]) st.counts
        (st.callIdx + 1) st.execIdx st.executed) false
    have hpair : procCalls execTool
        (LoopState.mk (st.messages ++ [assistantMsgOf (am (10 - (fuel + 1)))]) st.counts
          (st.callIdx + 1) st.execIdx st.executed) false (am (10 - (fuel + 1))).toolCalls =
        ((procCalls execTool
          (LoopState.mk (st.messages ++ [assistantMsgOf (am (10 - (fuel + 1)))]) st.counts
            (st.callIdx + 1) st.execIdx st.executed) false (am (10 - (fuel + 1))).toolCalls).1,
         false) :=
      Prod.ext rfl hab
    have hred : runLoop complete execTool (fuel + 1) st =
        runLoop complete execTool fuel
          (procCalls execTool
            (LoopState.mk (st.messages ++ [assistantMsgOf (am (10 - (fuel + 1)))]) st.counts
              (st.callIdx + 1) st.execIdx st.executed) false (am (10 - (fuel + 1))).toolCalls).1 := by
      simp only [runLoop, hcidx]
      rw [if_neg htc]
      rw [hpair]
    have hciNew : (procCalls execTool
        (LoopState.mk (st.messages ++ [assistantMsgOf (am (10 - (fuel + 1)))]) st.counts
          (st.callIdx + 1) st.execIdx st.executed) false
          (am (10 - (fuel + 1))).toolCalls).1.callIdx = 10 - fuel := by
      rw [hidx]
      show st.callIdx + 1 = 10 - fuel
      omega
    have hcapNew : ∀ nm, (procCalls execTool
        (LoopState.mk (st.messages ++ [assistantMsgOf (am (10 - (fuel + 1)))]) st.counts
          (st.callIdx + 1) st.execIdx st.executed) false
          (am (10 - (fuel + 1))).toolCalls).1.counts nm +
        ((List.range' (10 - fuel) fuel).map fun k => occCount nm (am k).toolCalls).sum ≤
          capOf nm := by
      intro nm
      rw [hcounts nm]
      exact hsplit nm
    have hfinal := ih (procCalls execTool
        (LoopState.mk (st.messages ++ [assistantMsgOf (am (10 - (fuel + 1)))]) st.counts
          (st.callIdx + 1) st.execIdx st.executed) false
          (am (10 - (fuel + 1))).toolCalls).1 (by omega) hciNew hcapNew
    rw [hred]
    exact hfinal

/-- Claim C4 (amended): for every invocation in which the completion function
returns tool calls on each of the first ten responses *and no tool name
occurs, in total across those responses, more often than its per-tool cap*,
the loop performs exactly 10 generate/execute iterations (never an 11th
completion call that offers tools), then issues one further forced completion
call with an empty tool set, persists the session, and terminates returning
that call's text or the fixed fallback string if the text is empty.  Without
the cap proviso the claim is false: see the counterexample, where the
guardrail ends the run after 4 iterations. -/
theorem runLocalAgent_budget (complete : Nat → Except String AssistantMsg)
    (execTool : Nat → String) (systemPrompt prompt : String)
    (history : List ChatMessage) (am : Nat → AssistantMsg) (fin : AssistantMsg)
    (hok : ∀ k, k < 10 → complete k = .ok (am k))
    (hcalls : ∀ k, k < 10 → (am k).toolCalls ≠ [])
    (hfin : complete 10 = .ok fin)
    (hcap : ∀ nm,
      ((List.range 10).map fun k => occCount nm (am k).toolCalls).sum ≤ capOf nm) :
    (runLocalAgent complete execTool systemPrompt prompt history).offeringCalls = 10 ∧
    (runLocalAgent complete execTool systemPrompt prompt history).forcedCall = true ∧
    (runLocalAgent complete execTool systemPrompt prompt history).status = .success ∧
    (runLocalAgent complete execTool systemPrompt prompt history).result =
      some (if fin.content.getD "" = "" then "I reached my processing limit. Please try again."
            else fin.content.getD "") ∧
    (runLocalAgent complete execTool systemPrompt prompt history).saved =
      some ((runLocalAgent complete execTool systemPrompt prompt history).finalMessages.drop 1) := by
  have hcap' : ∀ nm, (0 : Nat) +
      ((List.range' 0 10).map fun k => occCount nm (am k).toolCalls).sum ≤ capOf nm := by
    intro nm
    have hh := hcap nm
    rw [List.range_eq_range'] at hh
    omega
  exact runLoop_budget complete execTool am fin hok hcalls hfin 10
    { messages := systemMsg systemPrompt :: (trimHistory history ++ [userMsg prompt])
      counts := fun _ => 0
      callIdx := 0
      execIdx := 0
      executed := [] }
    (by omega) rfl (fun nm => hcap' nm)

/-- Counterexample for C4: a completion function that returns a tool call on
every response — always the same `ebay_search` call — does not reach 10
iterations: the per-tool guardrail stops the loop after its 4th
tool-offering completion call. -/
theorem runLocalAgent_budget_cex :
    (runLocalAgent (fun _ => .ok ⟨none, [⟨"c1", "ebay_search", "{}"⟩]⟩) (fun _ => "ok")
        "s" "p" []).offeringCalls = 4 ∧
    (runLocalAgent (fun _ => .ok ⟨none, [⟨"c1", "ebay_search", "{}"⟩]⟩) (fun _ => "ok")
        "s" "p" []).offeringCalls ≠ 10 := by
  exact ⟨by decide, by decide⟩

/-- Witness for C4 (amended): ten responses spreading single tool calls over
four distinct names (3+3+3+1, within every cap) drive the loop through all
ten iterations to the forced final call and the fallback text. -/
theorem runLocalAgent_budget_witness :
    (runLocalAgent (fun k => .ok ⟨none,
        [⟨"i", if k < 3 then "a" else if k < 6 then "b" else if k < 9 then "c" else "d", "{}"⟩]⟩)
        (fun _ => "ok") "s" "p" []).offeringCalls = 10 ∧
    (runLocalAgent (fun k => .ok ⟨none,
        [⟨"i", if k < 3 then "a" else if k < 6 then "b" else if k < 9 then "c" else "d", "{}"⟩]⟩)
        (fun _ => "ok") "s" "p" []).forcedCall = true ∧
    (runLocalAgent (fun k => .ok ⟨none,
        [⟨"i", if k < 3 then "a" else if k < 6 then "b" else if k < 9 then "c" else "d", "{}"⟩]⟩)
        (fun _ => "ok") "s" "p" []).result =
      some "I reached my processing limit. Please try again." := by
  have hcap : ∀ nm, ((List.range 10).map fun k => occCount nm
      ((⟨none, [⟨"i", if k < 3 then "a" else if k < 6 then "b" else if k < 9 then "c" else "d",
        "{}"⟩]⟩ : AssistantMsg)).toolCalls).sum ≤ capOf nm := by
    intro nm
    by_cases ha : nm = "a"
    · subst ha; decide
    by_cases hb : nm = "b"
    · subst hb; decide
    by_cases hc : nm = "c"
    · subst hc; decide
    by_cases hd : nm = "d"
    · subst hd; decide
    have hocc : ∀ s : String, ¬ s = nm → occCount nm [⟨"i", s, "{}"⟩] = 0 := by
      intro s hs
      simp [occCount, List.count_cons, beq_iff_eq, hs]
    have hz : ((List.range 10).map fun k => occCount nm
        ((⟨none, [⟨"i", if k < 3 then "a" else if k < 6 then "b" else if k < 9 then "c" else "d",
          "{}"⟩]⟩ : AssistantMsg)).toolCalls).sum = 0 := by
      apply List.sum_eq_zero
      intro x hx
      rw [List.mem_map] at hx
      obtain ⟨k, -, rfl⟩ := hx
      rcases Nat.lt_or_ge k 3 with hk | hk
      · rw [show (if k < 3 then "a" else if k < 6 then "b" else if k < 9 then "c" else "d") = "a"
          from by rw [if_pos hk]]
        exact hocc "a" (fun h => ha h.symm)
      rcases Nat.lt_or_ge k 6 with hk2 | hk2
      · rw [show (if k < 3 then "a" else if k < 6 then "b" else if k < 9 then "c" else "d") = "b"
          from by rw [if_neg (by omega), if_pos hk2]]
        exact hocc "b" (fun h => hb h.symm)
      rcases Nat.lt_or_ge k 9 with hk3 | hk3
      · rw [show (if k < 3 then "a" else if k < 6 then "b" else if k < 9 then "c" else "d") = "c"
          from by rw [if_neg (by omega), if_neg (by omega), if_pos hk3]]
        exact hocc "c" (fun h => hc h.symm)
      · rw [show (if k < 3 then "a" else if k < 6 then "b" else if k < 9 then "c" else "d") = "d"
          from by rw [if_neg (by omega), if_neg (by omega), if_neg (by omega)]]
        exact hocc "d" (fun h => hd h.symm)
    rw [hz]
    exact Nat.zero_le _
  have h := runLocalAgent_budget
    (fun k => .ok ⟨none,
      [⟨"i", if k < 3 then "a" else if k < 6 then "b" else if k < 9 then "c" else "d", "{}"⟩]⟩)
    (fun _ => "ok") "s" "p" []
    (fun k => ⟨none,
      [⟨"i", if k < 3 then "a" else if k < 6 then "b" else if k < 9 then "c" else "d", "{}"⟩]⟩)
    ⟨none, [⟨"i", "d", "{}"⟩]⟩
    (fun _ _ => rfl) (fun _ _ => List.cons_ne_nil _ _) rfl hcap
  exact ⟨h.1, h.2.1, h.2.2.2.1⟩

end Nanoclaw
